import Mathlib

/-!
Verification development for the caldav-mcp repository.

The core of the repository is `CalendarService` in `src/src/index.ts`:
an iCalendar text codec (regex-based field extraction and event-text
building), an event query/filter engine (interval overlap with all-day
and timezone handling), and an HTTP session/transport router in
`src/api/mcp.ts`.

Texts are embedded as `List Char` (the `.data` of a `String`).  Instants
are embedded as `Int` seconds since the Unix epoch; the host timezone is
modelled as a fixed UTC offset `off` in minutes (the value returned by
JavaScript's `Date.prototype.getTimezoneOffset`, positive west of
Greenwich), together with an IANA zone name used only to state spec-level
claims.  JavaScript regular-expression matching (leftmost match with
greedy backtracking) is embedded by explicit scanning functions that
reproduce the exact three patterns used by the source.
-/

namespace CaldavMcp

/-! ## Generic text utilities -/

/-- Substring containment, as JavaScript's `String.prototype.includes`. -/
def containsSub (pat : List Char) : List Char → Bool
  | [] => pat.isPrefixOf ([] : List Char)
  | c :: rest => pat.isPrefixOf (c :: rest) || containsSub pat rest

/-! ## The three extraction patterns of `listEvents` (src/src/index.ts lines 195-197 and 252-254)

The source matches, against the raw calendar object text:
  `/DTSTART(?:;TZID=([^:]+))?(?:;VALUE=DATE)?:([^\n]+)/`
  `/DTEND(?:;TZID=([^:]+))?(?:;VALUE=DATE)?:([^\n]+)/`
  `/SUMMARY:([^\n]+)/`
`findProp tag` embeds the first two (with `tag` the literal head) and
`findSummary` the third, reproducing leftmost-match order and the greedy,
backtracking behaviour of `[^:]+`. -/

/-- Match `:([^\n]+)` at the head of `cs`: a colon followed by a nonempty
run of non-newline characters (the captured value). -/
def colonValue (cs : List Char) : Option (List Char) :=
  match cs with
  | ':' :: rest =>
    let v := rest.takeWhile (fun c => c != '\n')
    if v.isEmpty then none else some v
  | _ => none

/-- Match `(?:;VALUE=DATE)?:([^\n]+)` at the head of `cs`: the optional
group is tried first (as a regex engine does), then skipped. -/
def valueDateOrNot (cs : List Char) : Option (List Char) :=
  (if (";VALUE=DATE".data).isPrefixOf cs then colonValue (cs.drop 11) else none)
    <|> colonValue cs

/-- Backtracking loop for the greedy `[^:]+` capture of the `TZID=` group:
`g1rev` is the reversed current capture; on failure of the continuation the
last captured character is given back to `rem`. -/
def tzidLoop : List Char → List Char → Option (Option (List Char) × List Char)
  | [], _ => none
  | c :: g1rev, rem =>
    match valueDateOrNot rem with
    | some v => some (some ((c :: g1rev).reverse), v)
    | none => tzidLoop g1rev (c :: rem)

/-- Match `(?:;TZID=([^:]+))?(?:;VALUE=DATE)?:([^\n]+)` at the head of
`cs`, returning the optional TZID capture and the value capture.  The
`TZID` alternative is tried first with the greedy `[^:]+`, then the
TZID-absent alternative. -/
def matchAfterTag (cs : List Char) : Option (Option (List Char) × List Char) :=
  (if (";TZID=".data).isPrefixOf cs then
     let rest := cs.drop 6
     let run := rest.takeWhile (fun c => c != ':')
     tzidLoop run.reverse (rest.drop run.length)
   else none)
    <|> (match valueDateOrNot cs with
         | some v => some (none, v)
         | none => none)

/-- Leftmost match of `tag(?:;TZID=([^:]+))?(?:;VALUE=DATE)?:([^\n]+)`
over the whole text: at each position, if the literal `tag` is present the
rest of the pattern is attempted; otherwise (or on failure) the scan moves
one character right, as a regex engine does. -/
def findProp (tag : List Char) : List Char → Option (Option (List Char) × List Char)
  | [] => none
  | c :: rest =>
    match (if tag.isPrefixOf (c :: rest) then matchAfterTag ((c :: rest).drop tag.length) else none) with
    | some r => some r
    | none => findProp tag rest

/-- Leftmost match of `SUMMARY:([^\n]+)` over the whole text. -/
def findSummary : List Char → Option (List Char)
  | [] => none
  | c :: rest =>
    match (if ("SUMMARY:".data).isPrefixOf (c :: rest) then
             (let v := ((c :: rest).drop 8).takeWhile (fun x => x != '\n')
              if v.isEmpty then none else some v)
           else none) with
    | some r => some r
    | none => findSummary rest

/-! ## Date-string rewriting (src/src/index.ts lines 214-215, 219, 228, 270, 273-276)

The source rewrites raw iCalendar digit strings into ISO-like form with
`String.prototype.replace`, which replaces the first (leftmost) match:
  `/(\d{4})(\d{2})(\d{2})/`                 -> `$1-$2-$3`
  `/(\d{4})(\d{2})(\d{2})T(\d{2})(\d{2})(\d{2})/` -> `$1-$2-$3T$4:$5:$6` -/

/-- Rewrite the first run of 8 digits `YYYYMMDD` into `YYYY-MM-DD`;
leave the text unchanged when no such run occurs. -/
def replace8 : List Char → List Char
  | a :: b :: c :: d :: e :: f :: g :: h :: rest =>
    if a.isDigit && b.isDigit && c.isDigit && d.isDigit
       && e.isDigit && f.isDigit && g.isDigit && h.isDigit then
      a :: b :: c :: d :: '-' :: e :: f :: '-' :: g :: h :: rest
    else
      a :: replace8 (b :: c :: d :: e :: f :: g :: h :: rest)
  | short => short

/-- Rewrite the first occurrence of `YYYYMMDDTHHMMSS` into
`YYYY-MM-DDTHH:MM:SS`; leave the text unchanged when none occurs. -/
def replace15 : List Char → List Char
  | a :: b :: c :: d :: e :: f :: g :: h :: 'T' :: i :: j :: k :: l :: m :: n :: rest =>
    if a.isDigit && b.isDigit && c.isDigit && d.isDigit
       && e.isDigit && f.isDigit && g.isDigit && h.isDigit
       && i.isDigit && j.isDigit && k.isDigit && l.isDigit
       && m.isDigit && n.isDigit then
      a :: b :: c :: d :: '-' :: e :: f :: '-' :: g :: h :: 'T'
        :: i :: j :: ':' :: k :: l :: ':' :: m :: n :: rest
    else
      a :: replace15 (b :: c :: d :: e :: f :: g :: h :: 'T' :: i :: j :: k :: l :: m :: n :: rest)
  | a :: rest => a :: replace15 rest
  | [] => []

/-! ## Calendar arithmetic and the embedded `new Date(...)` -/

/-- Numeric value of a decimal digit character. -/
def digToNat (c : Char) : Nat := c.toNat - 48

/-- Two decimal digits as a number. -/
def twoDig (a b : Char) : Nat := 10 * digToNat a + digToNat b

/-- Four decimal digits as a number. -/
def fourDig (a b c d : Char) : Nat :=
  1000 * digToNat a + 100 * digToNat b + 10 * digToNat c + digToNat d

/-- Gregorian leap-year test. -/
def isLeap (y : Nat) : Bool := (y % 4 == 0 && y % 100 != 0) || y % 400 == 0

/-- Number of days in a month of the proleptic Gregorian calendar. -/
def daysInMonth (y m : Nat) : Nat :=
  if m = 2 then (if isLeap y then 29 else 28)
  else if m = 4 ∨ m = 6 ∨ m = 9 ∨ m = 11 then 30
  else 31

/-- Days from the Unix epoch 1970-01-01 to the civil date `y-m-d`
(standard days-from-civil computation). -/
def daysFromCivil (y m d : Nat) : Int :=
  let yAdj := if m ≤ 2 then y - 1 else y
  let era := yAdj / 400
  let yoe := yAdj % 400
  let mp := (m + 9) % 12
  let doy := (153 * mp + 2) / 5 + d - 1
  let doe := yoe * 365 + yoe / 4 - yoe / 100 + doy
  (era * 146097 + doe : Int) - 719468

/-- Epoch seconds of UTC midnight of the civil date `y-m-d`. -/
def civilSec (y m d : Nat) : Int := daysFromCivil y m d * 86400

/-- Range validity of a civil date, as checked by ECMAScript date parsing. -/
def validYMD (y m d : Nat) : Bool :=
  1 ≤ m && m ≤ 12 && 1 ≤ d && d ≤ daysInMonth y m

/-- Range validity of a time of day, as checked by ECMAScript date parsing. -/
def validHMS (h mi s : Nat) : Bool := h ≤ 23 && mi ≤ 59 && s ≤ 59

/-- Embeds `new Date(text).getTime()` (in seconds) for the text shapes
reachable in `listEvents` after the rewriting step, under a host zone of
fixed UTC offset `off` minutes: a date-only string `YYYY-MM-DD` is UTC
midnight; a date-time string `YYYY-MM-DDTHH:MM:SS` is local time (the
offset is added); with a trailing `Z` it is UTC; any other text, or
out-of-range fields, is an Invalid Date, embedded as `none`. -/
def parseJsDate (off : Int) (cs : List Char) : Option Int :=
  match cs with
  | [y1, y2, y3, y4, '-', m1, m2, '-', dd1, dd2] =>
    if (y1.isDigit && y2.isDigit && y3.isDigit && y4.isDigit
        && m1.isDigit && m2.isDigit && dd1.isDigit && dd2.isDigit)
       && validYMD (fourDig y1 y2 y3 y4) (twoDig m1 m2) (twoDig dd1 dd2) then
      some (civilSec (fourDig y1 y2 y3 y4) (twoDig m1 m2) (twoDig dd1 dd2))
    else none
  | [y1, y2, y3, y4, '-', m1, m2, '-', dd1, dd2, 'T', h1, h2, ':', mi1, mi2, ':', s1, s2] =>
    if (y1.isDigit && y2.isDigit && y3.isDigit && y4.isDigit
        && m1.isDigit && m2.isDigit && dd1.isDigit && dd2.isDigit
        && h1.isDigit && h2.isDigit && mi1.isDigit && mi2.isDigit
        && s1.isDigit && s2.isDigit)
       && validYMD (fourDig y1 y2 y3 y4) (twoDig m1 m2) (twoDig dd1 dd2)
       && validHMS (twoDig h1 h2) (twoDig mi1 mi2) (twoDig s1 s2) then
      some (civilSec (fourDig y1 y2 y3 y4) (twoDig m1 m2) (twoDig dd1 dd2)
            + twoDig h1 h2 * 3600 + twoDig mi1 mi2 * 60 + twoDig s1 s2
            + off * 60)
    else none
  | [y1, y2, y3, y4, '-', m1, m2, '-', dd1, dd2, 'T', h1, h2, ':', mi1, mi2, ':', s1, s2, 'Z'] =>
    if (y1.isDigit && y2.isDigit && y3.isDigit && y4.isDigit
        && m1.isDigit && m2.isDigit && dd1.isDigit && dd2.isDigit
        && h1.isDigit && h2.isDigit && mi1.isDigit && mi2.isDigit
        && s1.isDigit && s2.isDigit)
       && validYMD (fourDig y1 y2 y3 y4) (twoDig m1 m2) (twoDig dd1 dd2)
       && validHMS (twoDig h1 h2) (twoDig mi1 mi2) (twoDig s1 s2) then
      some (civilSec (fourDig y1 y2 y3 y4) (twoDig m1 m2) (twoDig dd1 dd2)
            + twoDig h1 h2 * 3600 + twoDig mi1 mi2 * 60 + twoDig s1 s2)
    else none
  | _ => none

/-! ## The decode step of `listEvents` (src/src/index.ts lines 195-208 and 252-284) -/

/-- Literal head of the DTSTART pattern. -/
def dtstartTag : List Char := "DTSTART".data

/-- Literal head of the DTEND pattern. -/
def dtendTag : List Char := "DTEND".data

/-- Fields extracted from one calendar object text by the three pattern
matches of `listEvents`, plus the all-day classification
`event.data.includes('VALUE=DATE')`. -/
structure ParsedEvent where
  summary : List Char
  startTz : Option (List Char)
  startVal : List Char
  endTz : Option (List Char)
  endVal : List Char
  isAllDay : Bool
deriving DecidableEq, Repr

/-- Sentinel returned by the per-event formatter when a pattern fails
(src/src/index.ts line 257). -/
def errSentinel : List Char := "Error: Could not parse event data".data

/-- Run the three pattern matches on one object text; `none` embeds the
`!startMatch || !endMatch || !summaryMatch` failure case. -/
def decodeEvent (data : List Char) : Option ParsedEvent :=
  match findProp dtstartTag data, findProp dtendTag data, findSummary data with
  | some (stz, sv), some (etz, ev), some su =>
    some { summary := su, startTz := stz, startVal := sv, endTz := etz, endVal := ev,
           isAllDay := containsSub ("VALUE=DATE".data) data }
  | _, _, _ => none

/-- Display form of one date string (the inner `formatDate` of the
formatting map, src/src/index.ts lines 267-279): all-day values are dashed
`YYYY-MM-DD`; timed values are dashed-and-coloned, with ` (tz)` appended
when a TZID was captured. -/
def formatDateDisp (dateStr : List Char) (tz : Option (List Char)) (allDay : Bool) : List Char :=
  if allDay then replace8 dateStr
  else
    match tz with
    | some z => replace15 dateStr ++ " (".data ++ z ++ ")".data
    | none => replace15 dateStr

/-- Formatted block for one successfully decoded event
(src/src/index.ts line 284). -/
def renderBlock (pe : ParsedEvent) : List Char :=
  pe.summary ++ (if pe.isAllDay then " (All Day)".data else [])
    ++ "\nStart: ".data ++ formatDateDisp pe.startVal pe.startTz pe.isAllDay
    ++ "\nEnd: ".data ++ formatDateDisp pe.endVal pe.endTz pe.isAllDay

/-- Per-event body of the formatting map of `listEvents`
(src/src/index.ts lines 246-289): the sentinel on pattern failure,
otherwise the formatted block. -/
def formatEventL (data : List Char) : List Char :=
  match decodeEvent data with
  | none => errSentinel
  | some pe => renderBlock pe

/-! ## The filter step of `listEvents` (src/src/index.ts lines 185-242) -/

/-- Pair two optional instants; `none` anywhere embeds an Invalid Date,
whose comparisons are always false in JavaScript. -/
def pairOpt : Option Int → Option Int → Option (Int × Int)
  | some a, some b => some (a, b)
  | _, _ => none

/-- Computed `[startUTC, endUTC]` of one object text (src/src/index.ts
lines 210-235): the all-day branch dashes the 8-digit dates, parses them,
and subtracts one day (86400 s) from the end (the `setDate(getDate() - 1)`
call); the timed branch dashes the 15-character stamps, parses them as
local time, and adds the host offset once more whenever a TZID was
captured. -/
def computeInterval (off : Int) (data : List Char) : Option (Int × Int) :=
  match decodeEvent data with
  | none => none
  | some pe =>
    if pe.isAllDay then
      pairOpt (parseJsDate off (replace8 pe.startVal))
        ((parseJsDate off (replace8 pe.endVal)).map (fun e => e - 86400))
    else
      pairOpt
        (match pe.startTz with
         | some _ => (parseJsDate off (replace15 pe.startVal)).map (fun s => s + off * 60)
         | none => parseJsDate off (replace15 pe.startVal))
        (match pe.endTz with
         | some _ => (parseJsDate off (replace15 pe.endVal)).map (fun e => e + off * 60)
         | none => parseJsDate off (replace15 pe.endVal))

/-- Filter predicate of `listEvents` on one object text (src/src/index.ts
lines 185-242): false on parse failure or Invalid Date, otherwise the
closed-interval overlap test `startUTC <= endDate && endUTC >= startDate`
of line 237 against the window `[wS, wE]`. -/
def filterEvent (off wS wE : Int) (data : List Char) : Bool :=
  match computeInterval off data with
  | some (s, e) => decide (s ≤ wE) && decide (wS ≤ e)
  | none => false

/-- Whole `listEvents` text pipeline on a fetched batch: stable filter by
window overlap, then per-event formatting, joined by newlines
(src/src/index.ts lines 185-289). -/
def listEvents (off wS wE : Int) (objs : List (List Char)) : List Char :=
  List.intercalate ("\n".data) ((objs.filter (filterEvent off wS wE)).map formatEventL)

/-! ## The encoder of `createEvent` (src/src/index.ts lines 104-134) -/

/-- Local wall-clock fields of an instant, as read back by
`getFullYear`/`getMonth`/`getDate`/`getHours`/`getMinutes`/`getSeconds`
from the `new Date(start)` of a start/end string in the accepted
local-time format. -/
structure WallClock where
  y : Nat
  mo : Nat
  d : Nat
  h : Nat
  mi : Nat
  s : Nat
deriving DecidableEq, Repr

/-- Decimal digit character of a value below ten (the shape produced by
JavaScript number-to-string conversion). -/
def digitChar : Nat → Char
  | 0 => '0'
  | 1 => '1'
  | 2 => '2'
  | 3 => '3'
  | 4 => '4'
  | 5 => '5'
  | 6 => '6'
  | 7 => '7'
  | 8 => '8'
  | 9 => '9'
  | _ => '0'

/-- Structural helper for `natDigits`: the first argument is fuel, always
sufficient at `n + 1` since dividing by ten shrinks the number. -/
def natDigitsAux : Nat → Nat → List Char
  | 0, _ => []
  | fuel + 1, n =>
    if n < 10 then [digitChar n]
    else natDigitsAux fuel (n / 10) ++ [digitChar (n % 10)]

/-- Decimal digits of a natural number, embedding JavaScript's
`String(n)` for the nonnegative integers used here. -/
def natDigits (n : Nat) : List Char := natDigitsAux (n + 1) n

/-- Embeds `String(n).padStart(2, '0')`. -/
def pad2 (n : Nat) : List Char :=
  let l := natDigits n
  if l.length < 2 then '0' :: l else l

/-- Embeds the encoder's `formatDate` (src/src/index.ts lines 104-114):
`TZID=<timezone>:YYYYMMDDTHHMMSS` from the local wall-clock fields. -/
def formatDate (timezone : List Char) (w : WallClock) : List Char :=
  "TZID=".data ++ timezone ++ ":".data
    ++ natDigits w.y ++ pad2 w.mo ++ pad2 w.d
    ++ "T".data ++ pad2 w.h ++ pad2 w.mi ++ pad2 w.s

/-- Reminder action variants accepted by `createEvent`. -/
inductive ReminderAction where
  | display
  | audio
  | email
deriving DecidableEq, Repr

/-- One reminder argument of `createEvent`. -/
structure Reminder where
  action : ReminderAction
  trigger : List Char
  description : Option (List Char)
deriving DecidableEq, Repr

/-- Text of the `ACTION` line (the ternary of src/src/index.ts line 118). -/
def actionText : ReminderAction → List Char
  | .display => "DISPLAY".data
  | .audio => "AUDIO".data
  | .email => "EMAIL".data

/-- One `VALARM` block (src/src/index.ts lines 117-124). -/
def alarmBlock (r : Reminder) : List Char :=
  "BEGIN:VALARM\nACTION:".data ++ actionText r.action
    ++ "\nTRIGGER:".data ++ r.trigger
    ++ (match r.description with
        | some d => "\nDESCRIPTION:".data ++ d
        | none => [])
    ++ "\nEND:VALARM".data

/-- Joined alarm blocks; an absent or empty reminder list yields the empty
text (the `|| ''` of src/src/index.ts line 124). -/
def alarmComponents (rs : Option (List Reminder)) : List Char :=
  match rs with
  | none => []
  | some l => List.intercalate ("\n".data) (l.map alarmBlock)

/-- Event text built by `createEvent` (src/src/index.ts lines 126-134). -/
def iCalString (summary : List Char) (startW endW : WallClock) (timezone : List Char)
    (recurrence location : Option (List Char)) (reminders : Option (List Reminder)) : List Char :=
  "BEGIN:VCALENDAR\nVERSION:2.0\nPRODID:-//tsdav//tsdav 1.0.0//EN\nBEGIN:VEVENT\nSUMMARY:".data
    ++ summary
    ++ "\nDTSTART;".data ++ formatDate timezone startW
    ++ "\nDTEND;".data ++ formatDate timezone endW
    ++ (match recurrence with
        | some r => "\nRRULE:".data ++ r
        | none => [])
    ++ (match location with
        | some l => "\nLOCATION:".data ++ l
        | none => [])
    ++ (let a := alarmComponents reminders
        if a.isEmpty then [] else '\n' :: a)
    ++ "\nEND:VEVENT\nEND:VCALENDAR".data

/-! ## Timezone adjustment condition (src/src/index.ts lines 217-235)

`codeAdjust` is the adjustment the filter engine applies to a
locally-parsed timed instant: the host offset is added exactly when a
TZID was captured.  `claimAdjust` follows the specification's words
instead: the adjustment applies exactly when the captured TZID differs
from the process's local zone. -/

/-- Adjustment applied by the code: add the host offset iff a TZID was
captured (the `if (startTz)` / `if (endTz)` guards). -/
def codeAdjust (off : Int) (tz : Option (List Char)) (t : Int) : Int :=
  match tz with
  | some _ => t + off * 60
  | none => t

/-- Adjustment as the specification describes it: applied exactly when
the captured TZID differs from the process's local zone `localZone`,
and not applied when it equals the local zone or is absent. -/
def claimAdjust (off : Int) (localZone : List Char) (tz : Option (List Char)) (t : Int) : Int :=
  match tz with
  | some z => if z = localZone then t else t + off * 60
  | none => t

/-! ## Session/transport router (src/api/mcp.ts) -/

/-- A live transport: an identity token and the session id recorded on it
by the SDK once its session is initialized. -/
structure TransportT where
  tid : Nat
  sessionId : Option String
deriving DecidableEq, Repr

/-- An inbound HTTP request as the handler sees it: the
`mcp-session-id` header and whether the body is an initialization
request. -/
structure McpRequest where
  header : Option String
  isInit : Bool
deriving DecidableEq, Repr

/-- The process-wide session map `transports` (src/api/mcp.ts line 9). -/
abbrev SessionMap : Type := List (String × TransportT)

/-- Own-entry lookup in the session map: the *own* properties of the
`transports` object literal (the entries the code itself has stored). -/
def lookupSession : SessionMap → String → Option TransportT
  | [], _ => none
  | (k, t) :: rest, s => if k = s then some t else lookupSession rest s

/-- Property names every plain JavaScript object literal inherits from
`Object.prototype`; indexing `transports` with one of these yields a
truthy non-transport value (a function, or the prototype object for
`__proto__`) even when no such session was ever stored. -/
def protoKeys : List String :=
  ["constructor", "hasOwnProperty", "isPrototypeOf", "propertyIsEnumerable",
   "toLocaleString", "toString", "valueOf", "__defineGetter__",
   "__defineSetter__", "__lookupGetter__", "__lookupSetter__", "__proto__"]

/-- Result of the bracket access `transports[sessionId]` as the truthy
guard sees it: an own entry (the stored transport), a truthy value
inherited from `Object.prototype`, or `undefined` (falsy). -/
inductive PropLookup where
  | own (t : TransportT)
  | inherited
  | missing
deriving DecidableEq, Repr

/-- Embeds the JavaScript property access `transports[sessionId]` on the
plain object `transports` (src/api/mcp.ts line 16): an own property
shadows the prototype; failing that, the inherited `Object.prototype`
members are found; otherwise the access evaluates to `undefined`. -/
def jsIndex (m : SessionMap) (s : String) : PropLookup :=
  match lookupSession m s with
  | some t => .own t
  | none => if s ∈ protoKeys then .inherited else .missing

/-- Removal of a key (the `delete transports[...]` of line 32). -/
def removeSession (m : SessionMap) (sid : String) : SessionMap :=
  m.filter (fun p => p.1 != sid)

/-- Keyed overwrite (the `transports[sessionId] = transport` of line 25). -/
def insertSession (m : SessionMap) (sid : String) (t : TransportT) : SessionMap :=
  (sid, t) :: removeSession m sid

/-- JSON-RPC error body shape of the rejection response. -/
structure RpcError where
  jsonrpc : String
  code : Int
  message : String
  id : Option Int
deriving DecidableEq, Repr

/-- The fixed rejection body (src/api/mcp.ts lines 114-121); `id := none`
embeds `id: null`. -/
def badRequestBody : RpcError :=
  { jsonrpc := "2.0", code := -32000,
    message := "Bad Request: No valid session ID provided", id := none }

/-- Branch taken by the handler for one request.  `throwTypeError` is the
branch in which the truthy guard accepted a value inherited from
`Object.prototype`: the code assigns that non-transport value to
`transport` and the later `transport.handleRequest(...)` call throws a
TypeError, so no response body is produced by the handler itself. -/
inductive HandlerStep where
  | reuse (t : TransportT)
  | createNew
  | reject (status : Nat) (body : RpcError)
  | throwTypeError
deriving DecidableEq, Repr

/-- Branching of the request handler (src/api/mcp.ts lines 11-123).  The
guard of line 16 is `sessionId && transports[sessionId]`: a nonempty
session id whose bracket access is truthy takes the reuse branch — a
stored transport when the id is an own key, but also an inherited
`Object.prototype` member when the id is one of `protoKeys`, in which
case the later `handleRequest` call throws a TypeError.  A falsy session
id with an initialization body creates a new transport; everything else
is rejected with status 400 and the fixed body.  The handler body itself
never writes the map, so the map is returned unchanged in every
branch. -/
def handler (m : SessionMap) (r : McpRequest) : HandlerStep × SessionMap :=
  match r.header with
  | some s =>
    if s ≠ "" then
      match jsIndex m s with
      | .own t => (.reuse t, m)
      | .inherited => (.throwTypeError, m)
      | .missing => (.reject 400 badRequestBody, m)
    else
      if r.isInit then (.createNew, m) else (.reject 400 badRequestBody, m)
  | none =>
    if r.isInit then (.createNew, m) else (.reject 400 badRequestBody, m)

/-- The `onsessioninitialized` callback (src/api/mcp.ts lines 23-27): the
SDK records the generated id on the transport and the callback stores the
transport under that id. -/
def sessionInitCallback (m : SessionMap) (t : TransportT) (sid : String) : SessionMap :=
  insertSession m sid { t with sessionId := some sid }

/-- The `transport.onclose` handler (src/api/mcp.ts lines 30-34): the
entry under the transport's own recorded session id is removed; a
transport with no session id removes nothing. -/
def closeCallback (m : SessionMap) (t : TransportT) : SessionMap :=
  match t.sessionId with
  | some sid => removeSession m sid
  | none => m

/-- Invariant of the session map: every entry points at a transport whose
recorded session id equals its key. -/
def goodMap (m : SessionMap) : Prop :=
  ∀ p ∈ m, (p.2).sessionId = some p.1

/-! ## Recurrence-instance display (modelled)

The provided sources contain no RECURRENCE-ID handling: the fuller
`listEvents` variant that the specification describes (spec sections 3,
4.1 step 6 and 8) is not under src/.  The display of recurrence instances
is therefore modelled from the specification. -/

/-- Modelled from the spec: the EventIdentifier of section 3, derived from
a calendar object's URL by stripping the path prefix (everything through
the final `/`) and the `.ics` suffix. -/
def eventIdOfUrl (url : List Char) : List Char :=
  let seg := (url.reverse.takeWhile (fun c => c != '/')).reverse
  if (".ics".data).isSuffixOf seg then seg.take (seg.length - 4) else seg

/-- Modelled from the spec: the recurrence-aware per-event formatter of
the fuller `listEvents` (missing from src/).  Per section 4.1 step 6, a
RECURRENCE-ID present in the component text marks the block as a
recurrence instance and appends a master-event-id line holding the
extracted identifier, not the full object URL. -/
def formatEventRec (url data : List Char) : List Char :=
  match decodeEvent data with
  | none => errSentinel
  | some pe =>
    renderBlock pe
      ++ (if containsSub ("RECURRENCE-ID".data) data then
            "\nRecurrence Instance\nMaster Event: ".data ++ eventIdOfUrl url
          else [])

/-! ## Named concrete texts used by witnesses and counterexamples -/

/-- All-day event over the raw exclusive range `[20240101, 20240103)`. -/
def allDayText : List Char :=
  "BEGIN:VEVENT\nSUMMARY:Conference\nDTSTART;VALUE=DATE:20240101\nDTEND;VALUE=DATE:20240103\nEND:VEVENT".data

/-- Timed event `[2024-03-20T10:00:00, 2024-03-20T11:00:00]` with no TZID. -/
def boundaryText : List Char :=
  "SUMMARY:Meeting\nDTSTART:20240320T100000\nDTEND:20240320T110000".data

/-- Timed event whose TZID equals the host zone used in the C4 counterexample. -/
def nyText : List Char :=
  "SUMMARY:Standup\nDTSTART;TZID=America/New_York:20240320T100000\nDTEND;TZID=America/New_York:20240320T110000".data

/-- Fully timed event whose text contains `VALUE=DATE` only inside an
unrelated property. -/
def valueDateTimedText : List Char :=
  "SUMMARY:Sync\nDTSTART;TZID=UTC:20240320T100000\nDTEND;TZID=UTC:20240320T110000\nX-FOO;VALUE=DATE:junk".data

/-- Object text with none of the three required properties. -/
def badText : List Char := "DESCRIPTION:no fields here".data

/-- Recurrence-instance component text. -/
def recText : List Char :=
  "BEGIN:VEVENT\nSUMMARY:Standup\nRECURRENCE-ID;TZID=UTC:20240321T100000\nDTSTART;TZID=UTC:20240321T100000\nDTEND;TZID=UTC:20240321T103000\nEND:VEVENT".data

/-- Object URL of the recurrence instance. -/
def recUrl : List Char :=
  "https://cal.example.com/user/calendar/team-standup-1700000000000.ics".data

/-! ## Scanning infrastructure -/

/-- No position strictly inside `pre` starts a match of the literal `tag`
in the text `pre ++ rest`. -/
def noStart (tag pre rest : List Char) : Prop :=
  ∀ i, i < pre.length → tag.isPrefixOf (pre.drop i ++ rest) = false

/-- Decidable sufficient condition for `noStart` independent of the
continuation: every nonempty suffix of `pre` disagrees with `tag` inside
`pre` itself. -/
def cleanChunk (tag : List Char) : List Char → Bool
  | [] => true
  | c :: rest =>
    !(tag.isPrefixOf (c :: rest)) && !((c :: rest).isPrefixOf tag) && cleanChunk tag rest

/-- Digit part of the encoder's `formatDate` output. -/
def wcDigits (w : WallClock) : List Char :=
  natDigits w.y ++ (pad2 w.mo ++ (pad2 w.d ++ ('T' :: (pad2 w.h ++ (pad2 w.mi ++ pad2 w.s)))))

/-- Header of every encoded event text, up to and including `SUMMARY:`. -/
def encHeader : List Char :=
  "BEGIN:VCALENDAR\nVERSION:2.0\nPRODID:-//tsdav//tsdav 1.0.0//EN\nBEGIN:VEVENT\nSUMMARY:".data

/-- Header of every encoded event text, up to the `SUMMARY:` literal. -/
def encHeader0 : List Char :=
  "BEGIN:VCALENDAR\nVERSION:2.0\nPRODID:-//tsdav//tsdav 1.0.0//EN\nBEGIN:VEVENT\n".data

/-- Tail of an encoded event text from its DTEND line on. -/
def encRest2 (Z : List Char) (w2 : WallClock) : List Char :=
  '\n' :: ("DTEND;TZID=".data ++ (Z ++ (':' :: (wcDigits w2 ++ "\nEND:VEVENT\nEND:VCALENDAR".data))))

/-- Tail of an encoded event text from its DTSTART line on. -/
def encRest (Z : List Char) (w1 w2 : WallClock) : List Char :=
  '\n' :: ("DTSTART;TZID=".data ++ (Z ++ (':' :: (wcDigits w1 ++ encRest2 Z w2))))

/-! ## Prefix and scanning lemmas -/

theorem isPrefixOf_append_self (a b : List Char) : a.isPrefixOf (a ++ b) = true := by
  induction a with
  | nil => simp
  | cons c rest ih => simp [List.isPrefixOf_cons₂, ih]

theorem length_le_of_isPrefixOf {p l : List Char} (h : p.isPrefixOf l = true) :
    p.length ≤ l.length := by
  induction p generalizing l with
  | nil => simp
  | cons c rest ih =>
    cases l with
    | nil => simp at h
    | cons d t =>
      simp only [List.isPrefixOf_cons₂, Bool.and_eq_true, beq_iff_eq] at h
      simpa using ih h.2

theorem eq_of_isPrefixOf_length {p l : List Char} (h : p.isPrefixOf l = true)
    (hl : p.length = l.length) : p = l := by
  induction p generalizing l with
  | nil =>
    cases l with
    | nil => rfl
    | cons d t => simp at hl
  | cons c rest ih =>
    cases l with
    | nil => simp at h
    | cons d t =>
      simp only [List.isPrefixOf_cons₂, Bool.and_eq_true, beq_iff_eq] at h
      simp only [List.length_cons, Nat.add_right_cancel_iff] at hl
      rw [h.1, ih h.2 hl]

theorem prefixOf_append_split {p a b : List Char} (h : p.isPrefixOf (a ++ b) = true) :
    p.isPrefixOf a = true
      ∨ (a.isPrefixOf p = true ∧ (p.drop a.length).isPrefixOf b = true) := by
  induction a generalizing p with
  | nil => exact Or.inr ⟨by simp, by simpa using h⟩
  | cons c rest ih =>
    cases p with
    | nil => exact Or.inl (by simp)
    | cons d q =>
      simp only [List.cons_append, List.isPrefixOf_cons₂, Bool.and_eq_true, beq_iff_eq] at h
      rcases ih h.2 with h1 | ⟨h2, h3⟩
      · exact Or.inl (by simp [List.isPrefixOf_cons₂, h.1, h1])
      · exact Or.inr ⟨by simp [List.isPrefixOf_cons₂, h.1, h2], by simpa using h3⟩

theorem containsSub_false_drop {pat l : List Char} (h : containsSub pat l = false) :
    ∀ i, pat.isPrefixOf (l.drop i) = false := by
  induction l with
  | nil =>
    intro i
    simpa [containsSub, List.drop_nil] using h
  | cons c rest ih =>
    intro i
    simp only [containsSub, Bool.or_eq_false_iff] at h
    cases i with
    | zero => exact h.1
    | succ j => exact ih h.2 j

theorem noStart_of_cleanChunk {tag pre : List Char} (h : cleanChunk tag pre = true)
    (rest : List Char) : noStart tag pre rest := by
  induction pre with
  | nil => intro i hi; simp at hi
  | cons c t ih =>
    simp only [cleanChunk, Bool.and_eq_true, Bool.not_eq_true'] at h
    intro i hi
    cases i with
    | zero =>
      simp only [List.drop_zero]
      cases hp : tag.isPrefixOf ((c :: t) ++ rest)
      · rfl
      · rcases prefixOf_append_split hp with h1 | ⟨h2, _⟩
        · rw [h.1.1] at h1; exact absurd h1 (by simp)
        · rw [h.1.2] at h2; exact absurd h2 (by simp)
    | succ j =>
      simpa using ih h.2 j (by simpa using hi)

theorem noStart_of_not_contains {tag pre : List Char} (c : Char) (rest : List Char)
    (h1 : containsSub tag pre = false) (hc : c ∉ tag) :
    noStart tag pre (c :: rest) := by
  intro i hi
  cases hp : tag.isPrefixOf (pre.drop i ++ c :: rest)
  · rfl
  · exfalso
    rcases prefixOf_append_split hp with hA | ⟨hB, hC⟩
    · rw [containsSub_false_drop h1 i] at hA
      exact absurd hA (by simp)
    · have hle : (pre.drop i).length ≤ tag.length := length_le_of_isPrefixOf hB
      have hlt : (pre.drop i).length < tag.length := by
        rcases Nat.lt_or_eq_of_le hle with hlt | heqlen
        · exact hlt
        · have heq : (pre.drop i) = tag := eq_of_isPrefixOf_length hB heqlen
          have hself : tag.isPrefixOf tag = true := by
            have h0 := isPrefixOf_append_self tag []
            rwa [List.append_nil] at h0
          have htagdrop : tag.isPrefixOf (pre.drop i) = true := by
            rw [heq]
            exact hself
          rw [containsSub_false_drop h1 i] at htagdrop
          exact absurd htagdrop (by simp)
      cases hdrop : tag.drop (pre.drop i).length with
      | nil =>
        have hld : (tag.drop (pre.drop i).length).length = tag.length - (pre.drop i).length :=
          List.length_drop _ _
        rw [hdrop] at hld
        simp only [List.length_nil] at hld
        omega
      | cons d q =>
        rw [hdrop] at hC
        simp only [List.isPrefixOf_cons₂, Bool.and_eq_true, beq_iff_eq] at hC
        have hd : d ∈ tag := by
          have hmem : d ∈ tag.drop (pre.drop i).length := by
            rw [hdrop]
            exact List.mem_cons_self _ _
          exact List.mem_of_mem_drop hmem
        rw [hC.1] at hd
        exact hc hd

theorem noStart_of_head_notMem {tag pre : List Char} {t0 : Char} {ttail : List Char}
    (htag : tag = t0 :: ttail) (h : ∀ c ∈ pre, c ≠ t0) (rest : List Char) :
    noStart tag pre rest := by
  intro i hi
  have hlen : (pre.drop i).length = pre.length - i := List.length_drop _ _
  cases hd : pre.drop i with
  | nil =>
    rw [hd] at hlen
    simp only [List.length_nil] at hlen
    omega
  | cons c q =>
    have hcmem : c ∈ pre := by
      have hmem : c ∈ pre.drop i := by
        rw [hd]
        exact List.mem_cons_self _ _
      exact List.mem_of_mem_drop hmem
    have hne2 : (t0 == c) = false := by
      have := h c hcmem
      simp [beq_eq_false_iff_ne]
      exact fun hEq => this hEq.symm
    rw [htag]
    simp [List.cons_append, List.isPrefixOf_cons₂, hne2]

theorem noStart_append {tag a b rest : List Char}
    (ha : noStart tag a (b ++ rest)) (hb : noStart tag b rest) :
    noStart tag (a ++ b) rest := by
  intro i hi
  rcases Nat.lt_or_ge i a.length with hlt | hge
  · have h := ha i hlt
    rwa [List.drop_append_of_le_length (Nat.le_of_lt hlt), List.append_assoc]
  · obtain ⟨j, rfl⟩ : ∃ j, i = a.length + j := ⟨i - a.length, by omega⟩
    have hj : j < b.length := by
      rw [List.length_append] at hi
      omega
    have h := hb j hj
    rwa [List.drop_append]


theorem findProp_cons_miss {tag : List Char} {c : Char} {t : List Char}
    (h : tag.isPrefixOf (c :: t) = false) : findProp tag (c :: t) = findProp tag t := by
  simp [findProp, h]

theorem findProp_cons_hit {tag : List Char} {c : Char} {t : List Char}
    {r : Option (List Char) × List Char}
    (h : tag.isPrefixOf (c :: t) = true)
    (hm : matchAfterTag ((c :: t).drop tag.length) = some r) :
    findProp tag (c :: t) = some r := by
  simp [findProp, h, hm]

theorem findProp_append {tag pre rest : List Char} (h : noStart tag pre rest) :
    findProp tag (pre ++ rest) = findProp tag rest := by
  induction pre with
  | nil => simp
  | cons c t ih =>
    have h0 := h 0 (by simp)
    simp only [List.drop_zero] at h0
    rw [List.cons_append, findProp_cons_miss (by simpa using h0)]
    exact ih fun i hi => by simpa using h (i + 1) (by simpa using Nat.succ_lt_succ hi)

theorem findSummary_cons_miss {c : Char} {t : List Char}
    (h : ("SUMMARY:".data).isPrefixOf (c :: t) = false) :
    findSummary (c :: t) = findSummary t := by
  simp [findSummary, h]

theorem findSummary_append {pre rest : List Char} (h : noStart ("SUMMARY:".data) pre rest) :
    findSummary (pre ++ rest) = findSummary rest := by
  induction pre with
  | nil => simp
  | cons c t ih =>
    have h0 := h 0 (by simp)
    simp only [List.drop_zero] at h0
    rw [List.cons_append, findSummary_cons_miss (by simpa using h0)]
    exact ih fun i hi => by simpa using h (i + 1) (by simpa using Nat.succ_lt_succ hi)

theorem takeWhile_append_eq {p : Char → Bool} {l₁ l₂ : List Char} {c : Char}
    (h : ∀ a ∈ l₁, p a = true) (hc : p c = false) :
    (l₁ ++ c :: l₂).takeWhile p = l₁ := by
  rw [List.takeWhile_append_of_pos (by simpa using h)]
  simp [List.takeWhile_cons, hc]

theorem tzidLoop_first {g rem v : List Char} (hg : g ≠ [])
    (h : valueDateOrNot rem = some v) : tzidLoop g.reverse rem = some (some g, v) := by
  cases hr : g.reverse with
  | nil => exact absurd (List.reverse_eq_nil_iff.mp hr) hg
  | cons c gr =>
    have hgg : (c :: gr).reverse = g := by
      rw [← hr, List.reverse_reverse]
    simp [tzidLoop, h, hgg]

theorem valueDateOrNot_colon (X : List Char) :
    valueDateOrNot (':' :: X) = colonValue (':' :: X) := by
  have hp : (";VALUE=DATE".data).isPrefixOf (':' :: X) = false := by
    simp [List.isPrefixOf_cons₂]
  simp [valueDateOrNot, hp]

theorem colonValue_eval {D r : List Char} (hD : D ≠ []) (hDn : ∀ c ∈ D, c ≠ '\n') :
    colonValue (':' :: (D ++ '\n' :: r)) = some D := by
  have ht : (D ++ '\n' :: r).takeWhile (fun c => c != '\n') = D :=
    takeWhile_append_eq (fun a ha => by simpa using hDn a ha) (by decide)
  have hne : D.isEmpty = false := by
    cases D with
    | nil => exact absurd rfl hD
    | cons a as => rfl
  simp [colonValue, ht, hne]

theorem matchAfterTag_tzid_eval {Z D r : List Char} (hZ : Z ≠ []) (hZc : ∀ c ∈ Z, c ≠ ':')
    (hD : D ≠ []) (hDn : ∀ c ∈ D, c ≠ '\n') :
    matchAfterTag (";TZID=".data ++ (Z ++ (':' :: (D ++ '\n' :: r)))) = some (some Z, D) := by
  have hpre : (";TZID=".data).isPrefixOf
      (";TZID=".data ++ (Z ++ (':' :: (D ++ '\n' :: r)))) = true :=
    isPrefixOf_append_self _ _
  have hrun : (Z ++ (':' :: (D ++ '\n' :: r))).takeWhile (fun c => c != ':') = Z :=
    takeWhile_append_eq (fun a ha => by simpa using hZc a ha) (by decide)
  have hdropZ : (Z ++ (':' :: (D ++ '\n' :: r))).drop Z.length = ':' :: (D ++ '\n' :: r) :=
    List.drop_left _ _
  have hval : valueDateOrNot (':' :: (D ++ '\n' :: r)) = some D := by
    rw [valueDateOrNot_colon]
    exact colonValue_eval hD hDn
  have hloop : tzidLoop Z.reverse (':' :: (D ++ '\n' :: r)) = some (some Z, D) :=
    tzidLoop_first hZ hval
  have hdrop6 : (";TZID=".data ++ (Z ++ (':' :: (D ++ '\n' :: r)))).drop 6
      = Z ++ (':' :: (D ++ '\n' :: r)) := rfl
  simp [matchAfterTag, hpre, hdrop6, hrun, hdropZ, hloop]

theorem digitChar_isDigit (k : Nat) : (digitChar k).isDigit = true := by
  unfold digitChar
  split <;> decide

theorem natDigits_ne_nil (n : Nat) : natDigits n ≠ [] := by
  unfold natDigits natDigitsAux
  split
  · simp
  · simp

theorem mem_natDigitsAux {c : Char} : ∀ {fuel n : Nat},
    c ∈ natDigitsAux fuel n → c.isDigit = true := by
  intro fuel
  induction fuel with
  | zero =>
    intro n hc
    simp [natDigitsAux] at hc
  | succ f ih =>
    intro n hc
    simp only [natDigitsAux] at hc
    split at hc
    · simp only [List.mem_singleton] at hc
      rw [hc]
      exact digitChar_isDigit n
    · rcases List.mem_append.mp hc with h1 | h2
      · exact ih h1
      · simp only [List.mem_singleton] at h2
        rw [h2]
        exact digitChar_isDigit _

theorem mem_natDigits {c : Char} {n : Nat} (hc : c ∈ natDigits n) : c.isDigit = true :=
  mem_natDigitsAux hc

theorem mem_pad2 {c : Char} {n : Nat} (h : c ∈ pad2 n) : c.isDigit = true := by
  simp only [pad2] at h
  split at h
  · rcases List.mem_cons.mp h with h1 | h2
    · rw [h1]; decide
    · exact mem_natDigits h2
  · exact mem_natDigits h

theorem mem_wcDigits {c : Char} {w : WallClock} (h : c ∈ wcDigits w) :
    c.isDigit = true ∨ c = 'T' := by
  unfold wcDigits at h
  rcases List.mem_append.mp h with h | h
  · exact Or.inl (mem_natDigits h)
  rcases List.mem_append.mp h with h | h
  · exact Or.inl (mem_pad2 h)
  rcases List.mem_append.mp h with h | h
  · exact Or.inl (mem_pad2 h)
  rcases List.mem_cons.mp h with h | h
  · exact Or.inr h
  rcases List.mem_append.mp h with h | h
  · exact Or.inl (mem_pad2 h)
  rcases List.mem_append.mp h with h | h
  · exact Or.inl (mem_pad2 h)
  · exact Or.inl (mem_pad2 h)

theorem wcDigits_ne_nil (w : WallClock) : wcDigits w ≠ [] := by
  unfold wcDigits
  intro h
  exact natDigits_ne_nil w.y (List.append_eq_nil.mp h).1

theorem wcDigits_no_newline {w : WallClock} : ∀ c ∈ wcDigits w, c ≠ '\n' := by
  intro c hc he
  subst he
  rcases mem_wcDigits hc with h | h
  · exact absurd h (by decide)
  · exact absurd h (by decide)

theorem wcDigits_no_D {w : WallClock} : ∀ c ∈ wcDigits w, c ≠ 'D' := by
  intro c hc he
  subst he
  rcases mem_wcDigits hc with h | h
  · exact absurd h (by decide)
  · exact absurd h (by decide)

theorem lookup_remove_self (m : SessionMap) (sid : String) :
    lookupSession (removeSession m sid) sid = none := by
  induction m with
  | nil => rfl
  | cons p rest ih =>
    by_cases hp : p.1 = sid
    · have hb : (p.1 != sid) = false := by simp [hp]
      simpa [removeSession, List.filter_cons, hb] using ih
    · have hb : (p.1 != sid) = true := by simp [hp]
      simpa [removeSession, List.filter_cons, hb, lookupSession, hp] using ih

theorem lookup_remove_ne {s sid : String} (m : SessionMap) (h : s ≠ sid) :
    lookupSession (removeSession m sid) s = lookupSession m s := by
  induction m with
  | nil => rfl
  | cons p rest ih =>
    by_cases hp : p.1 = sid
    · have hb : (p.1 != sid) = false := by simp [hp]
      have hps : p.1 ≠ s := by rw [hp]; exact fun he => h he.symm
      simpa [removeSession, List.filter_cons, hb, lookupSession, hps] using ih
    · have hb : (p.1 != sid) = true := by simp [hp]
      by_cases hps : p.1 = s
      · simp [removeSession, List.filter_cons, hb, lookupSession, hps, h]
      · simpa [removeSession, List.filter_cons, hb, lookupSession, hps] using ih

theorem lookup_insert_self (m : SessionMap) (sid : String) (t : TransportT) :
    lookupSession (insertSession m sid t) sid = some t := by
  simp [insertSession, lookupSession]

theorem lookup_insert_ne {s sid : String} (m : SessionMap) (t : TransportT) (h : s ≠ sid) :
    lookupSession (insertSession m sid t) s = lookupSession m s := by
  have hne : ¬(sid = s) := fun he => h he.symm
  simp only [insertSession, lookupSession, hne, if_false]
  exact lookup_remove_ne m h

theorem goodMap_remove {m : SessionMap} (h : goodMap m) (sid : String) :
    goodMap (removeSession m sid) := by
  intro p hp
  exact h p (List.mem_of_mem_filter hp)

theorem goodMap_sessionInit {m : SessionMap} (h : goodMap m) (t : TransportT) (sid : String) :
    goodMap (sessionInitCallback m t sid) := by
  intro p hp
  rcases List.mem_cons.mp hp with h1 | h2
  · rw [h1]
  · exact goodMap_remove h sid p h2

theorem goodMap_close {m : SessionMap} (h : goodMap m) (t : TransportT) :
    goodMap (closeCallback m t) := by
  cases ht : t.sessionId with
  | none => simpa [closeCallback, ht] using h
  | some sid =>
    intro p hp
    have hp2 : p ∈ m.filter (fun q => q.1 != sid) := by
      simpa [closeCallback, ht, removeSession] using hp
    exact h p (List.mem_of_mem_filter hp2)

theorem handler_map_unchanged (m : SessionMap) (r : McpRequest) : (handler m r).2 = m := by
  rcases r with ⟨hd, i⟩
  cases hd with
  | none => cases i <;> rfl
  | some s =>
    by_cases hs : s = ""
    · subst hs
      cases i <;> simp [handler]
    · cases hj : jsIndex m s <;> simp [handler, hs, hj]

/-! ## Shared helper lemmas about the decode and filter steps -/

theorem newline_mem_renderBlock (pe : ParsedEvent) : '\n' ∈ renderBlock pe := by
  unfold renderBlock
  simp [List.mem_append]

theorem decodeEvent_isAllDay {data : List Char} {pe : ParsedEvent}
    (hd : decodeEvent data = some pe) :
    pe.isAllDay = containsSub ("VALUE=DATE".data) data := by
  cases h1 : findProp dtstartTag data with
  | none => simp [decodeEvent, h1] at hd
  | some p1 =>
    obtain ⟨stz, sv⟩ := p1
    cases h2 : findProp dtendTag data with
    | none => simp [decodeEvent, h1, h2] at hd
    | some p2 =>
      obtain ⟨etz, ev⟩ := p2
      cases h3 : findSummary data with
      | none => simp [decodeEvent, h1, h2, h3] at hd
      | some su =>
        simp only [decodeEvent, h1, h2, h3] at hd
        injection hd with h4
        rw [← h4]

theorem allday_interval_eq {off : Int} {data : List Char} {pe : ParsedEvent}
    (hd : decodeEvent data = some pe) (ha : pe.isAllDay = true) :
    computeInterval off data
      = pairOpt (parseJsDate off (replace8 pe.startVal))
          ((parseJsDate off (replace8 pe.endVal)).map (fun e => e - 86400)) := by
  simp [computeInterval, hd, ha]

theorem allday_interval_start {off : Int} {data : List Char} {pe : ParsedEvent} {s e : Int}
    (hd : decodeEvent data = some pe) (ha : pe.isAllDay = true)
    (hc : computeInterval off data = some (s, e)) :
    parseJsDate off (replace8 pe.startVal) = some s := by
  rw [allday_interval_eq hd ha] at hc
  cases hs : parseJsDate off (replace8 pe.startVal) with
  | none => rw [hs] at hc; simp [pairOpt] at hc
  | some sv =>
    cases he : parseJsDate off (replace8 pe.endVal) with
    | none => rw [hs, he] at hc; simp [pairOpt] at hc
    | some ev =>
      rw [hs, he] at hc
      simp [pairOpt] at hc
      rw [hc.1]

theorem allday_interval_end_shift {off : Int} {data : List Char} {pe : ParsedEvent} {s e : Int}
    (hd : decodeEvent data = some pe) (ha : pe.isAllDay = true)
    (hc : computeInterval off data = some (s, e)) :
    parseJsDate off (replace8 pe.endVal) = some (e + 86400) := by
  rw [allday_interval_eq hd ha] at hc
  cases hs : parseJsDate off (replace8 pe.startVal) with
  | none => rw [hs] at hc; simp [pairOpt] at hc
  | some sv =>
    cases he : parseJsDate off (replace8 pe.endVal) with
    | none => rw [hs, he] at hc; simp [pairOpt] at hc
    | some ev =>
      rw [hs, he] at hc
      simp [pairOpt] at hc
      have hev : ev = e + 86400 := by omega
      rw [hev]

/-! ## Claim theorems -/

/-- C1.  Decode totality and containment: an object text on which all three
patterns (DTSTART, DTEND, SUMMARY) match is decoded into a formatted event
block distinct from the sentinel; an object text on which at least one of
the three fails yields exactly the sentinel string `Error: Could not parse
event data` (no exception is possible: the formatter is a total function);
and the per-event formatting map treats every object of a batch
independently, so one failing object leaves the results of all remaining
objects unchanged. -/
theorem c1_decode_total_and_contained :
    (∀ data, ((findProp dtstartTag data).isSome && (findProp dtendTag data).isSome
        && (findSummary data).isSome) = true →
      ∃ pe, decodeEvent data = some pe ∧ formatEventL data = renderBlock pe
        ∧ formatEventL data ≠ errSentinel)
    ∧ (∀ data, ((findProp dtstartTag data).isSome && (findProp dtendTag data).isSome
        && (findSummary data).isSome) = false →
      formatEventL data = errSentinel)
    ∧ (∀ (pre post : List (List Char)) (bad : List Char),
        decodeEvent bad = none →
        (pre ++ bad :: post).map formatEventL
          = pre.map formatEventL ++ errSentinel :: post.map formatEventL) := by
  refine ⟨?_, ?_, ?_⟩
  · intro data h
    have hd : ∃ pe, decodeEvent data = some pe := by
      cases h1 : findProp dtstartTag data with
      | none => rw [h1] at h; simp at h
      | some p1 =>
        obtain ⟨stz, sv⟩ := p1
        cases h2 : findProp dtendTag data with
        | none => rw [h2] at h; simp at h
        | some p2 =>
          obtain ⟨etz, ev⟩ := p2
          cases h3 : findSummary data with
          | none => rw [h3] at h; simp at h
          | some su =>
            exact ⟨⟨su, stz, sv, etz, ev, containsSub ("VALUE=DATE".data) data⟩,
              by simp [decodeEvent, h1, h2, h3]⟩
    obtain ⟨pe, hpe⟩ := hd
    have hfe : formatEventL data = renderBlock pe := by simp [formatEventL, hpe]
    refine ⟨pe, hpe, hfe, ?_⟩
    intro hcontr
    rw [hfe] at hcontr
    have hmem := newline_mem_renderBlock pe
    rw [hcontr] at hmem
    exact absurd hmem (by decide)
  · intro data h
    have hd : decodeEvent data = none := by
      cases h1 : findProp dtstartTag data with
      | none => simp [decodeEvent, h1]
      | some p1 =>
        obtain ⟨stz, sv⟩ := p1
        cases h2 : findProp dtendTag data with
        | none => simp [decodeEvent, h1, h2]
        | some p2 =>
          obtain ⟨etz, ev⟩ := p2
          cases h3 : findSummary data with
          | none => simp [decodeEvent, h1, h2, h3]
          | some su => rw [h1, h2, h3] at h; simp at h
    simp [formatEventL, hd]
  · intro pre post bad hbad
    simp [List.map_append, List.map_cons, formatEventL, hbad]

/-- Witness for C1 at concrete inputs: a fully matching timed event decodes
to a block distinct from the sentinel, and a text with none of the three
properties formats to exactly the sentinel. -/
theorem c1_witness :
    (∃ pe, decodeEvent boundaryText = some pe ∧ formatEventL boundaryText = renderBlock pe
      ∧ formatEventL boundaryText ≠ errSentinel)
    ∧ formatEventL badText = errSentinel :=
  ⟨c1_decode_total_and_contained.1 boundaryText (by decide),
   c1_decode_total_and_contained.2.1 badText (by decide)⟩

/-- C2.  Closed-interval overlap: whenever the filter engine computes an
interval `[s, e]` for an object text, the object passes the window filter
`[wS, wE]` iff `s ≤ wE` and `e ≥ wS`; in particular an event whose end
equals the window start, or whose start equals the window end, is kept,
and membership in the filtered batch is exactly the filter predicate. -/
theorem c2_closed_interval_overlap :
    (∀ off wS wE data s e, computeInterval off data = some (s, e) →
      (filterEvent off wS wE data = true ↔ (s ≤ wE ∧ wS ≤ e)))
    ∧ (∀ off wS wE data s e, computeInterval off data = some (s, e) →
        e = wS → s ≤ wE → filterEvent off wS wE data = true)
    ∧ (∀ off wS wE data s e, computeInterval off data = some (s, e) →
        s = wE → wS ≤ e → filterEvent off wS wE data = true)
    ∧ (∀ off wS wE (objs : List (List Char)) data, data ∈ objs →
        (data ∈ objs.filter (filterEvent off wS wE) ↔ filterEvent off wS wE data = true)) := by
  refine ⟨?_, ?_, ?_, ?_⟩
  · intro off wS wE data s e h
    simp [filterEvent, h]
  · intro off wS wE data s e h he hs
    subst he
    simp [filterEvent, h, hs]
  · intro off wS wE data s e h hs he
    subst hs
    simp [filterEvent, h, he]
  · intro off wS wE objs data hmem
    simp [List.mem_filter, hmem]

/-- Witness for C2 at the boundary example of the specification: the timed
event `[2024-03-20T10:00:00, 2024-03-20T11:00:00]` (host offset 0) is kept
by the window `[2024-03-20T11:00:00Z, 2024-03-20T12:00:00Z]` whose start
equals the event end, and by a window whose end equals the event start. -/
theorem c2_witness :
    filterEvent 0 1710932400 1710936000 boundaryText = true
    ∧ filterEvent 0 1710900000 1710928800 boundaryText = true :=
  ⟨c2_closed_interval_overlap.2.1 0 1710932400 1710936000 boundaryText
      1710928800 1710932400 (by decide) rfl (by decide),
   c2_closed_interval_overlap.2.2.1 0 1710900000 1710928800 boundaryText
      1710928800 1710932400 (by decide) rfl (by decide)⟩

/-- C3.  All-day exclusive-end conversion: for every all-day event the
filter engine's computed end is the parsed raw DTEND date minus exactly
one day (86400 s), and the all-day event over raw `[20240101, 20240103)`
is kept by the window `[2024-01-02, 2024-01-02]` and dropped by the window
`[2024-01-03, 2024-01-05]`. -/
theorem c3_allday_exclusive_end :
    (∀ off data pe s e, decodeEvent data = some pe → pe.isAllDay = true →
      computeInterval off data = some (s, e) →
      parseJsDate off (replace8 pe.endVal) = some (e + 86400))
    ∧ filterEvent 0 (civilSec 2024 1 2) (civilSec 2024 1 2) allDayText = true
    ∧ filterEvent 0 (civilSec 2024 1 3) (civilSec 2024 1 5) allDayText = false := by
  refine ⟨?_, by decide, by decide⟩
  intro off data pe s e hd ha hc
  exact allday_interval_end_shift hd ha hc

/-- Witness for C3: the all-day text over `[20240101, 20240103)` has
computed end `2024-01-02`, one day before the parsed raw end. -/
theorem c3_witness :
    parseJsDate 0 (replace8 ("20240103".data)) = some (civilSec 2024 1 2 + 86400) :=
  c3_allday_exclusive_end.1 0 allDayText
    ⟨"Conference".data, none, "20240101".data, none, "20240103".data, true⟩
    (civilSec 2024 1 1) (civilSec 2024 1 2) (by decide) rfl (by decide)

/-- C8.  All-day classification heuristic: an event is classified all-day
iff its raw text contains the substring `VALUE=DATE` anywhere; whenever
that substring is present the filter takes the date-only branch (with the
one-day end shift), even for fully timed DTSTART/DTEND values, as the
concrete text with `VALUE=DATE` inside an unrelated property shows. -/
theorem c8_allday_classification :
    (∀ data pe, decodeEvent data = some pe →
      pe.isAllDay = containsSub ("VALUE=DATE".data) data)
    ∧ (∀ off data pe s e, decodeEvent data = some pe →
        containsSub ("VALUE=DATE".data) data = true →
        computeInterval off data = some (s, e) →
        parseJsDate off (replace8 pe.startVal) = some s
          ∧ parseJsDate off (replace8 pe.endVal) = some (e + 86400))
    ∧ (decodeEvent valueDateTimedText).map ParsedEvent.isAllDay = some true
    ∧ formatEventL valueDateTimedText
        = ("Sync (All Day)\nStart: 2024-03-20T100000\nEnd: 2024-03-20T110000").data := by
  refine ⟨?_, ?_, by decide, by decide⟩
  · intro data pe hd
    exact decodeEvent_isAllDay hd
  · intro off data pe s e hd hsub hc
    have ha : pe.isAllDay = true := (decodeEvent_isAllDay hd).trans hsub
    exact ⟨allday_interval_start hd ha hc, allday_interval_end_shift hd ha hc⟩

/-- Witness for C8: the fully timed text with `VALUE=DATE` inside an
unrelated property is classified all-day, and its computed interval uses
the date-only branch (Invalid Date here, since the timed values do not
parse as dates). -/
theorem c8_witness :
    (⟨"Sync".data, some ("UTC".data), "20240320T100000".data,
        some ("UTC".data), "20240320T110000".data, true⟩ : ParsedEvent).isAllDay
      = containsSub ("VALUE=DATE".data) valueDateTimedText :=
  c8_allday_classification.1 valueDateTimedText _ (by decide)

/-- C9.  Implicit claim: the displayed End line of an all-day block renders
the raw exclusive DTEND digits (dashed only), while the one-day conversion
is applied only inside the overlap computation; concretely the text over
`[20240101, 20240103)` displays `End: 2024-01-03` yet filters with end
`2024-01-02`. -/
theorem c9_display_shows_raw_end :
    (∀ data pe, decodeEvent data = some pe → pe.isAllDay = true →
      formatEventL data
        = pe.summary ++ " (All Day)".data ++ "\nStart: ".data ++ replace8 pe.startVal
          ++ "\nEnd: ".data ++ replace8 pe.endVal)
    ∧ (∀ off data pe s e, decodeEvent data = some pe → pe.isAllDay = true →
        computeInterval off data = some (s, e) →
        parseJsDate off (replace8 pe.endVal) = some (e + 86400))
    ∧ formatEventL allDayText
        = ("Conference (All Day)\nStart: 2024-01-01\nEnd: 2024-01-03").data
    ∧ computeInterval 0 allDayText = some (civilSec 2024 1 1, civilSec 2024 1 2) := by
  refine ⟨?_, ?_, by decide, by decide⟩
  · intro data pe hd ha
    simp [formatEventL, hd, renderBlock, formatDateDisp, ha]
  · intro off data pe s e hd ha hc
    exact allday_interval_end_shift hd ha hc

/-- Witness for C9: the all-day example block displays the raw exclusive
end date. -/
theorem c9_witness :
    formatEventL allDayText
      = ("Conference".data) ++ " (All Day)".data ++ "\nStart: ".data
          ++ replace8 ("20240101".data) ++ "\nEnd: ".data ++ replace8 ("20240103".data) :=
  c9_display_shows_raw_end.1 allDayText
    ⟨"Conference".data, none, "20240101".data, none, "20240103".data, true⟩
    (by decide) rfl

/-- C4 counterexample.  The claim says the offset approximation is applied
exactly when the captured TZID differs from the process's local zone, and
not applied when it equals the local zone.  With host offset 300 minutes
and local zone `America/New_York`, the event text whose captured TZID is
that same zone has locally-parsed start `1710946800`; the claim therefore
predicts the unadjusted interval, but the code still adds the offset: the
computed interval is `(1710964800, 1710968400)`, not the claim's
prediction. -/
theorem c4_counterexample :
    (decodeEvent nyText).map (fun pe => pe.startTz) = some (some ("America/New_York".data))
    ∧ parseJsDate 300 (replace15 ("20240320T100000".data)) = some 1710946800
    ∧ parseJsDate 300 (replace15 ("20240320T110000".data)) = some 1710950400
    ∧ claimAdjust 300 ("America/New_York".data) (some ("America/New_York".data)) 1710946800
        = 1710946800
    ∧ computeInterval 300 nyText = some (1710964800, 1710968400)
    ∧ computeInterval 300 nyText
        ≠ some (claimAdjust 300 ("America/New_York".data)
              (some ("America/New_York".data)) 1710946800,
            claimAdjust 300 ("America/New_York".data)
              (some ("America/New_York".data)) 1710950400) := by
  refine ⟨by decide, by decide, by decide, by decide, by decide, by decide⟩

/-- C4 (amended).  The timezone adjustment of the filter engine is applied
exactly when a TZID was captured, regardless of whether it equals the
process's local zone, and never applied when the TZID is absent: for every
timed (non-all-day) decoded event, the computed interval adds `off * 60`
seconds to each locally-parsed instant iff the corresponding TZID capture
is present. -/
theorem c4_amended_adjust_iff_tzid_present :
    (∀ (off : Int) (z : List Char) (t : Int), codeAdjust off (some z) t = t + off * 60)
    ∧ (∀ (off t : Int), codeAdjust off none t = t)
    ∧ (∀ (off : Int) (z : List Char) (t : Int), off ≠ 0 → codeAdjust off (some z) t ≠ t)
    ∧ (∀ off data pe, decodeEvent data = some pe → pe.isAllDay = false →
        computeInterval off data
          = pairOpt ((parseJsDate off (replace15 pe.startVal)).map (codeAdjust off pe.startTz))
              ((parseJsDate off (replace15 pe.endVal)).map (codeAdjust off pe.endTz))) := by
  refine ⟨fun off z t => rfl, fun off t => rfl, ?_, ?_⟩
  · intro off z t hoff
    simp only [codeAdjust]
    intro hcontra
    omega
  · intro off data pe hd ha
    cases hstz : pe.startTz <;> cases hetz : pe.endTz <;>
      cases hs : parseJsDate off (replace15 pe.startVal) <;>
        cases he : parseJsDate off (replace15 pe.endVal) <;>
          simp [computeInterval, hd, ha, hstz, hetz, hs, he, codeAdjust, pairOpt]

/-- Witness for the amended C4 at the concrete New York event and host
offset 300: the adjustment is applied to both instants although the
captured TZID equals the local zone. -/
theorem c4_amended_witness :
    codeAdjust 300 (some ("America/New_York".data)) 1710946800 = 1710946800 + 300 * 60
    ∧ codeAdjust 300 none 1710946800 = 1710946800
    ∧ codeAdjust 300 (some ("America/New_York".data)) 1710946800 ≠ 1710946800
    ∧ computeInterval 300 nyText
        = pairOpt ((parseJsDate 300 (replace15 ("20240320T100000".data))).map
              (codeAdjust 300 (some ("America/New_York".data))))
            ((parseJsDate 300 (replace15 ("20240320T110000".data))).map
              (codeAdjust 300 (some ("America/New_York".data)))) :=
  ⟨c4_amended_adjust_iff_tzid_present.1 300 ("America/New_York".data) 1710946800,
   c4_amended_adjust_iff_tzid_present.2.1 300 1710946800,
   c4_amended_adjust_iff_tzid_present.2.2.1 300 ("America/New_York".data) 1710946800 (by decide),
   c4_amended_adjust_iff_tzid_present.2.2.2 300 nyText
     ⟨"Standup".data, some ("America/New_York".data), "20240320T100000".data,
       some ("America/New_York".data), "20240320T110000".data, false⟩
     (by decide) rfl⟩

/-- C6 counterexample.  The claim asserts every request carrying a
non-empty session id absent from the session map is rejected with the
status-400, code -32000 body.  The id `toString` is non-empty and absent from the
empty map, yet `transports['toString']` is the inherited
`Object.prototype.toString` function, which is truthy: the handler takes
the reuse branch with that non-transport value (and the subsequent
`handleRequest` call throws a TypeError) instead of returning the
rejection body. -/
theorem c6_counterexample :
    ("toString" : String) ≠ ""
    ∧ lookupSession [] "toString" = none
    ∧ handler [] ⟨some "toString", false⟩ = (.throwTypeError, [])
    ∧ handler [] ⟨some "toString", false⟩ ≠ (.reject 400 badRequestBody, []) := by
  refine ⟨by decide, rfl, by decide, by decide⟩

/-- C6 (amended).  Session routing: a request carrying a non-empty
session id that is neither a key of the session map nor an inherited
`Object.prototype` property name is rejected with status 400 and the
fixed JSON-RPC body (code `-32000`, the fixed message, null id), with the
map unchanged and no transport created; a missing session id on a
non-initialization request is rejected the same way; a non-empty session
id absent from the map that is an inherited prototype key instead sends
the handler down the reuse branch with the inherited non-transport
value, where `handleRequest` throws a TypeError and no 400 body is
produced; and a session id present in the map reuses its mapped
transport. -/
theorem c6_amended_session_rejection :
    (∀ (m : SessionMap) (r : McpRequest) (s : String), r.header = some s → s ≠ "" →
      lookupSession m s = none → s ∉ protoKeys →
      handler m r = (.reject 400 badRequestBody, m))
    ∧ (∀ (m : SessionMap) (r : McpRequest), r.header = none → r.isInit = false →
      handler m r = (.reject 400 badRequestBody, m))
    ∧ (∀ (m : SessionMap) (r : McpRequest) (s : String), r.header = some s → s ≠ "" →
      lookupSession m s = none → s ∈ protoKeys →
      handler m r = (.throwTypeError, m))
    ∧ (∀ (m : SessionMap) (r : McpRequest) (s : String) (t : TransportT), r.header = some s →
        s ≠ "" → lookupSession m s = some t → handler m r = (.reuse t, m))
    ∧ badRequestBody
        = { jsonrpc := "2.0", code := -32000,
            message := "Bad Request: No valid session ID provided", id := none } := by
  refine ⟨?_, ?_, ?_, ?_, rfl⟩
  · intro m r s hh hs hl hp
    rcases r with ⟨hd, i⟩
    cases hh
    simp [handler, hs, jsIndex, hl, hp]
  · intro m r hh hi
    rcases r with ⟨hd, i⟩
    cases hh
    cases hi
    simp [handler]
  · intro m r s hh hs hl hp
    rcases r with ⟨hd, i⟩
    cases hh
    simp [handler, hs, jsIndex, hl, hp]
  · intro m r s t hh hs hl
    rcases r with ⟨hd, i⟩
    cases hh
    simp [handler, hs, jsIndex, hl]

/-- Witness for the amended C6 on a concrete one-entry map: an unknown
nonempty non-prototype id and a missing id are both rejected with the
fixed body and an unchanged map; the inherited key `toString` takes the
TypeError path; a known id reuses its transport. -/
theorem c6_amended_witness :
    handler [("abc", ⟨1, some "abc"⟩)] ⟨some "zzz", false⟩
        = (.reject 400 badRequestBody, [("abc", ⟨1, some "abc"⟩)])
    ∧ handler [("abc", ⟨1, some "abc"⟩)] ⟨none, false⟩
        = (.reject 400 badRequestBody, [("abc", ⟨1, some "abc"⟩)])
    ∧ handler [("abc", ⟨1, some "abc"⟩)] ⟨some "toString", false⟩
        = (.throwTypeError, [("abc", ⟨1, some "abc"⟩)])
    ∧ handler [("abc", ⟨1, some "abc"⟩)] ⟨some "abc", true⟩
        = (.reuse ⟨1, some "abc"⟩, [("abc", ⟨1, some "abc"⟩)]) :=
  ⟨c6_amended_session_rejection.1 _ _ "zzz" rfl (by decide) (by decide) (by decide),
   c6_amended_session_rejection.2.1 _ _ rfl rfl,
   c6_amended_session_rejection.2.2.1 _ _ "toString" rfl (by decide) (by decide) (by decide),
   c6_amended_session_rejection.2.2.2.1 _ _ "abc" ⟨1, some "abc"⟩ rfl (by decide) (by decide)⟩

/-- C7.  Recurrence-instance display (spec-modelled: the recurrence-aware
formatter is not in the provided sources): a component text containing
RECURRENCE-ID is formatted as a recurrence instance whose master-event-id
line holds the URL's final path segment with the `.ics` suffix stripped;
concretely the URL ending `team-standup-1700000000000.ics` yields the
identifier `team-standup-1700000000000`, and the block does not contain
the full object URL. -/
theorem c7_recurrence_display :
    (∀ url data pe, decodeEvent data = some pe →
      containsSub ("RECURRENCE-ID".data) data = true →
      formatEventRec url data
        = renderBlock pe ++ ("\nRecurrence Instance\nMaster Event: ".data ++ eventIdOfUrl url))
    ∧ eventIdOfUrl recUrl = "team-standup-1700000000000".data
    ∧ containsSub ("team-standup-1700000000000".data) (formatEventRec recUrl recText) = true
    ∧ containsSub recUrl (formatEventRec recUrl recText) = false := by
  refine ⟨?_, by decide, by decide, by decide⟩
  intro url data pe hd hc
  simp [formatEventRec, hd, hc]

/-- Witness for C7 at the concrete recurrence instance and its URL. -/
theorem c7_witness :
    formatEventRec recUrl recText
      = renderBlock ⟨"Standup".data, some ("UTC".data), "20240321T100000".data,
          some ("UTC".data), "20240321T103000".data, false⟩
        ++ ("\nRecurrence Instance\nMaster Event: ".data ++ eventIdOfUrl recUrl) :=
  c7_recurrence_display.1 recUrl recText _ (by decide) (by decide)

/-- C10.  Session map frame condition: the request handler itself never
changes the map (in every branch the returned map is the input map); the
initialization callback inserts exactly the one entry under the generated
id, pointing at the transport stamped with that id, and changes no other
key; the close callback removes exactly the entry under the transport's
own recorded id and changes no other key; and the invariant that every
entry's transport records its own key as session id is preserved by all
three operations. -/
theorem c10_session_frame :
    (∀ (m : SessionMap) (r : McpRequest), (handler m r).2 = m)
    ∧ (∀ (m : SessionMap) (t : TransportT) (sid : String),
        lookupSession (sessionInitCallback m t sid) sid = some { t with sessionId := some sid })
    ∧ (∀ (m : SessionMap) (t : TransportT) (sid s : String), s ≠ sid →
        lookupSession (sessionInitCallback m t sid) s = lookupSession m s)
    ∧ (∀ (m : SessionMap) (t : TransportT) (sid : String), t.sessionId = some sid →
        lookupSession (closeCallback m t) sid = none)
    ∧ (∀ (m : SessionMap) (t : TransportT) (sid s : String), t.sessionId = some sid → s ≠ sid →
        lookupSession (closeCallback m t) s = lookupSession m s)
    ∧ (∀ (m : SessionMap) (r : McpRequest), goodMap m → goodMap (handler m r).2)
    ∧ (∀ (m : SessionMap) (t : TransportT) (sid : String), goodMap m →
        goodMap (sessionInitCallback m t sid))
    ∧ (∀ (m : SessionMap) (t : TransportT), goodMap m → goodMap (closeCallback m t)) := by
  refine ⟨handler_map_unchanged, ?_, ?_, ?_, ?_, ?_, ?_, ?_⟩
  · intro m t sid
    exact lookup_insert_self m sid _
  · intro m t sid s hne
    exact lookup_insert_ne m _ hne
  · intro m t sid ht
    simp only [closeCallback, ht]
    exact lookup_remove_self m sid
  · intro m t sid s ht hne
    simp only [closeCallback, ht]
    exact lookup_remove_ne m hne
  · intro m r h
    rw [handler_map_unchanged]
    exact h
  · intro m t sid h
    exact goodMap_sessionInit h t sid
  · intro m t h
    exact goodMap_close h t

/-- Witness for C10 at concrete maps and transports. -/
theorem c10_witness :
    (handler [("abc", ⟨1, some "abc"⟩)] ⟨some "abc", false⟩).2 = [("abc", ⟨1, some "abc"⟩)]
    ∧ lookupSession (sessionInitCallback [] ⟨2, none⟩ "fresh") "fresh" = some ⟨2, some "fresh"⟩
    ∧ lookupSession (closeCallback [("abc", ⟨1, some "abc"⟩)] ⟨1, some "abc"⟩) "abc" = none
    ∧ goodMap (sessionInitCallback [] ⟨2, none⟩ "fresh") :=
  ⟨c10_session_frame.1 _ _,
   c10_session_frame.2.1 [] ⟨2, none⟩ "fresh",
   c10_session_frame.2.2.2.1 _ ⟨1, some "abc"⟩ "abc" rfl,
   c10_session_frame.2.2.2.2.2.2.1 [] ⟨2, none⟩ "fresh"
     (fun p hp => absurd hp (List.not_mem_nil p))⟩

/-! ## Round-trip infrastructure for C5 -/

theorem isPrefixOf_cons_false {a c : Char} {as t : List Char} (h : a ≠ c) :
    (a :: as).isPrefixOf (c :: t) = false := by
  simp [List.isPrefixOf_cons₂, h]

theorem findProp_hit_append {tag suffix : List Char} {r : Option (List Char) × List Char}
    (h : matchAfterTag suffix = some r) (htag : tag ≠ []) :
    findProp tag (tag ++ suffix) = some r := by
  cases tag with
  | nil => exact absurd rfl htag
  | cons c t =>
    show findProp (c :: t) (c :: (t ++ suffix)) = some r
    have hpre : (c :: t).isPrefixOf (c :: (t ++ suffix)) = true :=
      isPrefixOf_append_self (c :: t) suffix
    have hdrop : (c :: (t ++ suffix)).drop (c :: t).length = suffix := by
      show (t ++ suffix).drop t.length = suffix
      exact List.drop_left t suffix
    exact findProp_cons_hit hpre (by rw [hdrop]; exact h)

theorem findSummary_cons_hit {c : Char} {t v : List Char}
    (h : ("SUMMARY:".data).isPrefixOf (c :: t) = true)
    (hv : ((c :: t).drop 8).takeWhile (fun x => x != '\n') = v)
    (hne : v.isEmpty = false) :
    findSummary (c :: t) = some v := by
  simp only [findSummary, h, eq_self_iff_true, if_true, hv, hne, Bool.false_eq_true, if_false]

theorem findSummary_hit_append {S r : List Char} (hS : S ≠ []) (hSnl : '\n' ∉ S) :
    findSummary ("SUMMARY:".data ++ (S ++ '\n' :: r)) = some S := by
  show findSummary ('S' :: ("UMMARY:".data ++ (S ++ '\n' :: r))) = some S
  refine findSummary_cons_hit ?_ ?_ ?_
  · exact isPrefixOf_append_self ("SUMMARY:".data) (S ++ '\n' :: r)
  · show (S ++ '\n' :: r).takeWhile (fun x => x != '\n') = S
    refine takeWhile_append_eq ?_ (by decide)
    intro a ha
    have hne : a ≠ '\n' := fun he => hSnl (he ▸ ha)
    simpa using hne
  · cases S with
    | nil => exact absurd rfl hS
    | cons a as => rfl

/-- Decomposition of the encoder output (with no recurrence, location or
reminders) into the chunks the three scans walk through. -/
theorem iCal_decomp (S Z : List Char) (w1 w2 : WallClock) :
    iCalString S w1 w2 Z none none none = encHeader ++ (S ++ encRest Z w1 w2) := by
  simp only [iCalString, formatDate, alarmComponents, encHeader, encRest, encRest2, wcDigits,
    List.isEmpty_nil, if_true, List.append_nil, List.append_assoc, List.cons_append,
    List.nil_append, List.singleton_append]

/-- Summary text used by the C5 counterexample: newline-free, yet itself a
matchable DTSTART line. -/
def evilSummary : List Char := "DTSTART;TZID=Hack:19700101T000000".data

/-- C5 counterexample.  The claim quantifies over every newline-free
summary and every colon-free, newline-free zone name.  The summary
`DTSTART;TZID=Hack:19700101T000000` is newline-free and the zone
`Europe/London` satisfies the zone conditions, yet decoding the encoded
event captures TZID `Hack` (found inside the SUMMARY line, which precedes
the real DTSTART line) instead of `Europe/London`. -/
theorem c5_counterexample :
    ('\n' ∉ evilSummary)
    ∧ (':' ∉ ("Europe/London".data))
    ∧ ('\n' ∉ ("Europe/London".data))
    ∧ (decodeEvent (iCalString evilSummary ⟨2024, 3, 20, 15, 30, 0⟩ ⟨2024, 3, 20, 16, 30, 0⟩
          ("Europe/London".data) none none none)).map (fun pe => pe.startTz)
        = some (some ("Hack".data))
    ∧ ("Hack".data) ≠ ("Europe/London".data) := by
  refine ⟨by decide, by decide, by decide, by decide, by decide⟩

/-- C5 (amended).  Encode/decode round-trip: for every nonempty,
newline-free summary `S` containing no occurrence of `DTSTART` or `DTEND`,
and every nonempty zone name `Z` free of `:` and newline and containing no
occurrence of `DTEND`, decoding the text built by `createEvent`'s encoder
(without recurrence, location or reminders) succeeds and captures exactly
the summary `S`, TZID `Z` on both DTSTART and DTEND, and the encoded
wall-clock digit strings as the two values. -/
theorem c5_amended_roundtrip :
    ∀ (S Z : List Char) (w1 w2 : WallClock),
      S ≠ [] → '\n' ∉ S →
      containsSub ("DTSTART".data) S = false → containsSub ("DTEND".data) S = false →
      Z ≠ [] → ':' ∉ Z → '\n' ∉ Z → containsSub ("DTEND".data) Z = false →
      decodeEvent (iCalString S w1 w2 Z none none none)
        = some ⟨S, some Z, wcDigits w1, some Z, wcDigits w2,
            containsSub ("VALUE=DATE".data) (iCalString S w1 w2 Z none none none)⟩ := by
  intro S Z w1 w2 hSne hSnl hS1 hS2 hZne hZc hZnl hZ2
  rw [iCal_decomp S Z w1 w2]
  have hZcm : ∀ c ∈ Z, c ≠ ':' := fun c hc he => hZc (he ▸ hc)
  have hstart : findProp dtstartTag (encHeader ++ (S ++ encRest Z w1 w2))
      = some (some Z, wcDigits w1) := by
    have hskipH : noStart dtstartTag encHeader (S ++ encRest Z w1 w2) :=
      noStart_of_cleanChunk (by decide) _
    rw [findProp_append hskipH]
    have hskipS : noStart dtstartTag S (encRest Z w1 w2) :=
      noStart_of_not_contains '\n'
        ("DTSTART;TZID=".data ++ (Z ++ (':' :: (wcDigits w1 ++ encRest2 Z w2))))
        hS1 (by decide)
    rw [findProp_append hskipS]
    show findProp dtstartTag
        ('\n' :: ("DTSTART;TZID=".data ++ (Z ++ (':' :: (wcDigits w1 ++ encRest2 Z w2))))) = _
    have hm1 : dtstartTag.isPrefixOf
        ('\n' :: ("DTSTART;TZID=".data ++ (Z ++ (':' :: (wcDigits w1 ++ encRest2 Z w2)))))
        = false :=
      isPrefixOf_cons_false (by decide)
    rw [findProp_cons_miss hm1]
    show findProp dtstartTag
        (dtstartTag ++ (";TZID=".data ++ (Z ++ (':' :: (wcDigits w1 ++ encRest2 Z w2))))) = _
    refine findProp_hit_append ?_ (by decide)
    exact @matchAfterTag_tzid_eval Z (wcDigits w1)
        ("DTEND;TZID=".data
          ++ (Z ++ (':' :: (wcDigits w2 ++ "\nEND:VEVENT\nEND:VCALENDAR".data))))
        hZne hZcm (wcDigits_ne_nil w1) wcDigits_no_newline
  have hend : findProp dtendTag (encHeader ++ (S ++ encRest Z w1 w2))
      = some (some Z, wcDigits w2) := by
    have hskipH : noStart dtendTag encHeader (S ++ encRest Z w1 w2) :=
      noStart_of_cleanChunk (by decide) _
    rw [findProp_append hskipH]
    have hskipS : noStart dtendTag S (encRest Z w1 w2) :=
      noStart_of_not_contains '\n'
        ("DTSTART;TZID=".data ++ (Z ++ (':' :: (wcDigits w1 ++ encRest2 Z w2))))
        hS2 (by decide)
    rw [findProp_append hskipS]
    show findProp dtendTag
        ('\n' :: ("DTSTART;TZID=".data ++ (Z ++ (':' :: (wcDigits w1 ++ encRest2 Z w2))))) = _
    have hm1 : dtendTag.isPrefixOf
        ('\n' :: ("DTSTART;TZID=".data ++ (Z ++ (':' :: (wcDigits w1 ++ encRest2 Z w2)))))
        = false :=
      isPrefixOf_cons_false (by decide)
    rw [findProp_cons_miss hm1]
    have hskipLit : noStart dtendTag ("DTSTART;TZID=".data)
        (Z ++ (':' :: (wcDigits w1 ++ encRest2 Z w2))) :=
      noStart_of_cleanChunk (by decide) _
    rw [findProp_append hskipLit]
    have hskipZ : noStart dtendTag Z (':' :: (wcDigits w1 ++ encRest2 Z w2)) :=
      noStart_of_not_contains ':' (wcDigits w1 ++ encRest2 Z w2) hZ2 (by decide)
    rw [findProp_append hskipZ]
    have hm2 : dtendTag.isPrefixOf (':' :: (wcDigits w1 ++ encRest2 Z w2)) = false :=
      isPrefixOf_cons_false (by decide)
    rw [findProp_cons_miss hm2]
    have hskipD : noStart dtendTag (wcDigits w1) (encRest2 Z w2) :=
      noStart_of_head_notMem rfl wcDigits_no_D _
    rw [findProp_append hskipD]
    show findProp dtendTag
        ('\n' :: ("DTEND;TZID=".data
          ++ (Z ++ (':' :: (wcDigits w2 ++ "\nEND:VEVENT\nEND:VCALENDAR".data))))) = _
    have hm3 : dtendTag.isPrefixOf
        ('\n' :: ("DTEND;TZID=".data
          ++ (Z ++ (':' :: (wcDigits w2 ++ "\nEND:VEVENT\nEND:VCALENDAR".data))))) = false :=
      isPrefixOf_cons_false (by decide)
    rw [findProp_cons_miss hm3]
    show findProp dtendTag
        (dtendTag ++ (";TZID=".data
          ++ (Z ++ (':' :: (wcDigits w2 ++ "\nEND:VEVENT\nEND:VCALENDAR".data))))) = _
    refine findProp_hit_append ?_ (by decide)
    exact @matchAfterTag_tzid_eval Z (wcDigits w2) ("END:VEVENT\nEND:VCALENDAR".data)
        hZne hZcm (wcDigits_ne_nil w2) wcDigits_no_newline
  have hsum : findSummary (encHeader ++ (S ++ encRest Z w1 w2)) = some S := by
    have hskipH0 : noStart ("SUMMARY:".data) encHeader0
        ("SUMMARY:".data ++ (S ++ encRest Z w1 w2)) :=
      noStart_of_cleanChunk (by decide) _
    show findSummary (encHeader0 ++ ("SUMMARY:".data ++ (S ++ encRest Z w1 w2))) = some S
    rw [findSummary_append hskipH0]
    exact findSummary_hit_append hSne hSnl
  simp [decodeEvent, hstart, hend, hsum]

/-- Witness for the amended C5 at a concrete summary, zone and pair of
wall-clock instants. -/
theorem c5_witness :
    decodeEvent (iCalString ("Team sync".data) ⟨2024, 3, 20, 15, 30, 0⟩
        ⟨2024, 3, 20, 16, 30, 0⟩ ("Europe/London".data) none none none)
      = some ⟨"Team sync".data, some ("Europe/London".data), wcDigits ⟨2024, 3, 20, 15, 30, 0⟩,
          some ("Europe/London".data), wcDigits ⟨2024, 3, 20, 16, 30, 0⟩,
          containsSub ("VALUE=DATE".data)
            (iCalString ("Team sync".data) ⟨2024, 3, 20, 15, 30, 0⟩
              ⟨2024, 3, 20, 16, 30, 0⟩ ("Europe/London".data) none none none)⟩ :=
  c5_amended_roundtrip ("Team sync".data) ("Europe/London".data)
    ⟨2024, 3, 20, 15, 30, 0⟩ ⟨2024, 3, 20, 16, 30, 0⟩
    (by decide) (by decide) (by decide) (by decide)
    (by decide) (by decide) (by decide) (by decide)

end CaldavMcp
